import Mathlib

/-
Verification development for the control-my-robot repository.

The repository ships the feetech.js SDK type declarations (src/unnamed/part_001),
a README (src/unnamed/part_000) and two React pages that call the SDK
(src/unnamed/part_002, src/unnamed/part_003). The protocol engine itself
(PacketCodec, CommandDispatcher, SyncBatcher, Connection state machine) is not
under src, so those components are modelled from the specification, as marked
on each definition. Bytes are Nat with explicit reduction modulo 256 where the
wire format wraps.
-/

namespace RobotSDK

/-- Modelled from the spec: PacketCodec checksum (section 3 and 6 of spec.md);
the PacketCodec source is not under src. Checksum is the bitwise complement of
the low byte of the sum of id, length, instruction-or-error and parameters;
for a byte x the complement is 255 - x, and the sum wraps modulo 256 before
complementing. -/
def checksumByte (id len instr : Nat) (params : List Nat) : Nat :=
  255 - ((id + len + instr + params.sum) % 256)

/-- Modelled from the spec: PacketCodec.encodeInstruction (section 4.1);
the PacketCodec source is not under src. Produces
header(0xFF,0xFF) + id + length(=len(parameters)+2) + instruction +
parameters + checksum. -/
def encodeInstruction (id instr : Nat) (params : List Nat) : List Nat :=
  255 :: 255 :: id :: (params.length + 2) :: instr ::
    (params ++ [checksumByte id (params.length + 2) instr params])

/-- Codec error taxonomy from section 7 of spec.md. -/
inductive CodecError
  | framingError
  | checksumError
deriving DecidableEq

/-- Decoded response record per section 4.1 of spec.md. -/
structure DecodedResponse where
  id : Nat
  errorFlags : Nat
  parameters : List Nat
deriving DecidableEq

/-- Modelled from the spec: the header scan of PacketCodec.decodeResponse
(section 4.1); the PacketCodec source is not under src. Skips leading noise
bytes until the two 0xFF header bytes are found; the scan is bounded by the
length of the buffer. Returns the bytes after the header. -/
def findHeader : List Nat → Option (List Nat)
  | 255 :: 255 :: rest => some rest
  | _ :: rest => findHeader rest
  | [] => none

/-- Modelled from the spec: the body of PacketCodec.decodeResponse after the
header bytes have been located (section 4.1); the PacketCodec source is not
under src. Validates that the length byte matches the remaining buffer size,
recomputes the checksum over (id, length, errorFlags, parameters) and fails
with checksumError on mismatch; a mismatch never returns data from the
packet. -/
def decodeAfterHeader : List Nat → Except CodecError DecodedResponse
  | id :: len :: tail =>
    if len = tail.length ∧ 2 ≤ len then
      let instr := tail.headD 0
      let ps := (tail.drop 1).take (len - 2)
      let cs := (tail.drop (len - 1)).headD 0
      if checksumByte id len instr ps = cs then
        Except.ok ⟨id, instr, ps⟩
      else
        Except.error CodecError.checksumError
    else
      Except.error CodecError.framingError
  | _ => Except.error CodecError.framingError

/-- Modelled from the spec: PacketCodec.decodeResponse (section 4.1);
the PacketCodec source is not under src. Scans for the header, then decodes
and validates the framed fields. -/
def decodeResponse (bytes : List Nat) : Except CodecError DecodedResponse :=
  match findHeader bytes with
  | none => Except.error CodecError.framingError
  | some rest => decodeAfterHeader rest

/-! Dispatcher retry model. -/

/-- Modelled from the spec: the possible outcomes of one write-then-read bus
attempt as seen by CommandDispatcher.execute (section 4.3); the dispatcher
source is not under src. A reply carries the responder id and parameter
bytes; the other outcomes are a response timeout and the two corruption
kinds reported by the codec. -/
inductive AttemptResult
  | timeout
  | checksumNoise
  | framingNoise
  | reply (respId : Nat) (params : List Nat)
deriving DecidableEq

/-- Error taxonomy of CommandDispatcher.execute, from section 7 of spec.md. -/
inductive DispatchError
  | responseTimeout
  | checksumCorrupt
  | framingCorrupt
  | protocolMismatch
deriving DecidableEq

/-- True when an attempt outcome is a transient bus-level failure
(timeout, checksum corruption, framing corruption), which the dispatcher
retries; a reply is never transient. -/
def isTransient : AttemptResult → Bool
  | AttemptResult.timeout => true
  | AttemptResult.checksumNoise => true
  | AttemptResult.framingNoise => true
  | AttemptResult.reply _ _ => false

/-- The specific error kind surfaced for a transient attempt outcome. -/
def attemptError : AttemptResult → DispatchError
  | AttemptResult.timeout => DispatchError.responseTimeout
  | AttemptResult.checksumNoise => DispatchError.checksumCorrupt
  | AttemptResult.framingNoise => DispatchError.framingCorrupt
  | AttemptResult.reply _ _ => DispatchError.protocolMismatch

/-- Modelled from the spec: the retry bound of CommandDispatcher (sections 4.3
and 7); the dispatcher source is not under src. Transient failures are
retried up to this many extra attempts with the same packet. -/
def maxRetries : Nat := 2

/-- Modelled from the spec: the retry loop of CommandDispatcher.execute
(section 4.3); the dispatcher source is not under src. The transport is a
function from the attempt index to that attempt's outcome (the same packet is
re-sent on every attempt). A reply whose id differs from the requested id is
a protocol mismatch and is never retried; transient failures are retried
while fuel remains, and once fuel is exhausted the specific error kind of the
final attempt is surfaced. -/
def executeFrom (reqId : Nat) (transport : Nat → AttemptResult) :
    Nat → Nat → Except DispatchError (List Nat)
  | attempt, 0 =>
    match transport attempt with
    | AttemptResult.reply rid ps =>
      if rid = reqId then Except.ok ps else Except.error DispatchError.protocolMismatch
    | r => Except.error (attemptError r)
  | attempt, fuel + 1 =>
    match transport attempt with
    | AttemptResult.reply rid ps =>
      if rid = reqId then Except.ok ps else Except.error DispatchError.protocolMismatch
    | _ => executeFrom reqId transport (attempt + 1) fuel

/-- Modelled from the spec: CommandDispatcher.execute for an operation that
expects a response (section 4.3); the dispatcher source is not under src. -/
def execute (reqId : Nat) (transport : Nat → AttemptResult) :
    Except DispatchError (List Nat) :=
  executeFrom reqId transport 0 maxRetries

/-! SyncBatcher model. -/

/-- Modelled from the spec: two-byte register values are split into bytes
using the configured protocol endianness (section 4.1); the codec source is
not under src. protocolEnd 0 is low byte first, any other value is the
alternate big-endian variant. -/
def wordBytes (protocolEnd v : Nat) : List Nat :=
  if protocolEnd = 0 then [v % 256, v / 256 % 256] else [v / 256 % 256, v % 256]

/-- The value associated with a servo id in a caller-supplied association
list, defaulting to 0 when absent. -/
def lookupVal (entries : List (Nat × Nat)) (id : Nat) : Nat :=
  (entries.lookup id).getD 0

/-- The servo ids of a caller-supplied association list, in ascending order. -/
def sortedIds (entries : List (Nat × Nat)) : List Nat :=
  (entries.map Prod.fst).insertionSort (· ≤ ·)

/-- Concatenation of a list of byte segments. -/
def segList : List (List Nat) → List Nat
  | [] => []
  | l :: ls => l ++ segList ls

/-- Modelled from the spec: the reserved broadcast address 0xFE
(section 3); used only for synchronized commands. -/
def broadcastId : Nat := 254

/-- Modelled from the spec: the SYNC_WRITE instruction byte (section 6);
the concrete value is fixed by the device family. -/
def instSyncWrite : Nat := 131

/-- One call to Transport.write as issued by the dispatcher: the raw packet
bytes and whether a response is expected afterwards. -/
structure TransportWrite where
  bytes : List Nat
  expectResponse : Bool
deriving DecidableEq

/-- Modelled from the spec: the parameter block of a sync write
(section 4.4); the SyncBatcher source is not under src. One fixed-size
segment servoId followed by the value bytes, repeated per entry in ascending
servo id order, independent of the caller input order. -/
def syncWriteParams (protocolEnd : Nat) (entries : List (Nat × Nat)) : List Nat :=
  segList ((sortedIds entries).map
    (fun id => id :: wordBytes protocolEnd (lookupVal entries id)))

/-- Modelled from the spec: SyncBatcher.syncWrite (section 4.4); the
SyncBatcher source is not under src. Builds one packet addressed to the
broadcast id and dispatches it with expectResponse false; the returned list
is the full sequence of Transport write calls the operation performs. -/
def syncWrite (protocolEnd : Nat) (entries : List (Nat × Nat)) : List TransportWrite :=
  [⟨encodeInstruction broadcastId instSyncWrite (syncWriteParams protocolEnd entries), false⟩]

/-- Modelled from the spec: the sequential fallback path of
SyncBatcher.syncRead (section 4.4); the SyncBatcher source is not under src.
Each listed id is read individually through the dispatcher retry loop
(dev id is the per-servo transport); ids whose read fails after retries are
omitted from the resulting mapping instead of aborting the batch. The
function is total, so no failure of one id can abort the whole batch or
remove the values of the other ids. -/
def syncReadFallback (dev : Nat → Nat → AttemptResult) (ids : List Nat) :
    List (Nat × List Nat) :=
  ids.filterMap (fun id =>
    match execute id (dev id) with
    | Except.ok ps => some (id, ps)
    | Except.error _ => none)

/-- True when the individual dispatcher read of the given servo id succeeds
after retries. -/
def readsOk (dev : Nat → Nat → AttemptResult) (id : Nat) : Bool :=
  match execute id (dev id) with
  | Except.ok _ => true
  | Except.error _ => false

/-! Connection state machine and public API surface. -/

/-- The ConnectionOptions type declared in src/unnamed/part_001: both fields
are optional. -/
structure ConnectionOptions where
  baudRate : Option Nat
  protocolEnd : Option Nat
deriving DecidableEq

/-- A fully resolved connection configuration. -/
structure ResolvedConfig where
  baudRate : Nat
  protocolEnd : Nat
deriving DecidableEq

/-- Modelled from the spec: the default baud rate used when connect is called
without options; the connect implementation is not under src. -/
def defaultBaudRate : Nat := 1000000

/-- Modelled from the spec: the default protocol endianness variant used when
connect is called without options; the connect implementation is not under
src. -/
def defaultProtocolEnd : Nat := 0

/-- Modelled from the spec: resolution of the optional connect options into a
full configuration (sections 4.5 and 6); the connect implementation is not
under src. A missing argument or a missing field falls back to the default
configuration. -/
def resolveOptions : Option ConnectionOptions → ResolvedConfig
  | none => ⟨defaultBaudRate, defaultProtocolEnd⟩
  | some o => ⟨o.baudRate.getD defaultBaudRate, o.protocolEnd.getD defaultProtocolEnd⟩

/-- The Connection state machine of section 3 of spec.md; a connected state
owns its resolved configuration. -/
inductive ConnState
  | disconnected
  | connected (cfg : ResolvedConfig)
deriving DecidableEq

/-- State-misuse errors of section 7 of spec.md. -/
inductive SDKError
  | alreadyConnected
  | notConnected
deriving DecidableEq

/-- The success value of a public operation, mirroring the return types
declared in src/unnamed/part_001. -/
inductive OpResult
  | boolResult (b : Bool)
  | numResult (v : Nat)
  | strResult (s : String)
  | mapResult (m : List (Nat × Nat))
deriving DecidableEq

/-- Decidable equality for Except, needed to compute with operation
outcomes. -/
instance instDecEqExcept {ε α : Type} [DecidableEq ε] [DecidableEq α] :
    DecidableEq (Except ε α)
  | Except.error a, Except.error b =>
    if h : a = b then isTrue (congrArg Except.error h)
    else isFalse (fun hh => h (Except.error.inj hh))
  | Except.error _, Except.ok _ => isFalse (fun hh => Except.noConfusion hh)
  | Except.ok _, Except.error _ => isFalse (fun hh => Except.noConfusion hh)
  | Except.ok a, Except.ok b =>
    if h : a = b then isTrue (congrArg Except.ok h)
    else isFalse (fun hh => h (Except.ok.inj hh))

/-- The observable outcome of running one public operation: the connection
state afterwards, the result or error, the number of bus writes performed
and the number of transport opens performed. -/
structure OpRun where
  newState : ConnState
  outcome : Except SDKError OpResult
  busWrites : Nat
  portOpens : Nat
deriving DecidableEq

/-- The literal string value that the write-style operations of
src/unnamed/part_001 are declared to resolve with. -/
def successLit : String := "success"

/-- Modelled from the spec: HighLevelAPI.connect (section 4.5); the connect
implementation is not under src. Calling connect while already connected
fails with alreadyConnected, leaves the state unchanged and performs no
transport open and no bus traffic; from disconnected it opens the transport
once with the resolved configuration. -/
def connectOp (opts : Option ConnectionOptions) (s : ConnState) : OpRun :=
  match s with
  | ConnState.connected cfg =>
    ⟨ConnState.connected cfg, Except.error SDKError.alreadyConnected, 0, 0⟩
  | ConnState.disconnected =>
    ⟨ConnState.connected (resolveOptions opts), Except.ok (OpResult.boolResult true), 0, 1⟩

/-- The names of the public operations declared in src/unnamed/part_001. -/
inductive OpName
  | connect
  | disconnect
  | readPosition
  | readBaudRate
  | readMode
  | writePosition
  | writeTorqueEnable
  | writeAcceleration
  | setWheelMode
  | setPositionMode
  | writeWheelSpeed
  | syncReadPositions
  | syncWritePositions
  | syncWriteWheelSpeed
  | setBaudRate
  | setServoId
deriving DecidableEq, BEq

/-- Modelled from the spec: the behaviour of each public operation once the
connection is established (sections 4.5 and 6); the implementations are not
under src and the bodies here are reduced to their observable outcome shape,
since the claims about them concern only the state guard. Write-style
operations resolve with the literal success string after one bus write;
reads return a number; disconnect returns to the disconnected state. -/
def connectedBody (cfg : ResolvedConfig) : OpName → OpRun
  | OpName.connect => connectOp none (ConnState.connected cfg)
  | OpName.disconnect =>
    ⟨ConnState.disconnected, Except.ok (OpResult.boolResult true), 0, 0⟩
  | OpName.readPosition =>
    ⟨ConnState.connected cfg, Except.ok (OpResult.numResult 0), 1, 0⟩
  | OpName.readBaudRate =>
    ⟨ConnState.connected cfg, Except.ok (OpResult.numResult 0), 1, 0⟩
  | OpName.readMode =>
    ⟨ConnState.connected cfg, Except.ok (OpResult.numResult 0), 1, 0⟩
  | OpName.syncReadPositions =>
    ⟨ConnState.connected cfg, Except.ok (OpResult.mapResult []), 1, 0⟩
  | _ =>
    ⟨ConnState.connected cfg, Except.ok (OpResult.strResult successLit), 1, 0⟩

/-- Modelled from the spec: the state guard of every public operation
(section 4.5); the implementations are not under src. connect is handled by
connectOp; every other operation fails with notConnected while disconnected,
before any bus traffic and without changing the state. -/
def runOp (op : OpName) (opts : Option ConnectionOptions) (s : ConnState) : OpRun :=
  if op = OpName.connect then connectOp opts s
  else
    match s with
    | ConnState.disconnected =>
      ⟨ConnState.disconnected, Except.error SDKError.notConnected, 0, 0⟩
    | ConnState.connected cfg => connectedBody cfg op

/-- The declared success type of a public operation in the TypeScript
declaration file src/unnamed/part_001: a promise of a boolean, of a number,
of a mapping from servo id to number, or of a string literal type. -/
inductive TsType
  | promiseBool
  | promiseNumber
  | promiseNumberMap
  | promiseLiteral (s : String)
deriving DecidableEq, BEq

/-- The declared return type of every method of the ScsServoSDK interface,
transcribed from src/unnamed/part_001 lines 10 to 25. -/
def sdkDeclaredReturns : List (OpName × TsType) :=
  [(OpName.connect, TsType.promiseBool),
   (OpName.disconnect, TsType.promiseBool),
   (OpName.readPosition, TsType.promiseNumber),
   (OpName.readBaudRate, TsType.promiseNumber),
   (OpName.readMode, TsType.promiseNumber),
   (OpName.writePosition, TsType.promiseLiteral successLit),
   (OpName.writeTorqueEnable, TsType.promiseLiteral successLit),
   (OpName.writeAcceleration, TsType.promiseLiteral successLit),
   (OpName.setWheelMode, TsType.promiseLiteral successLit),
   (OpName.setPositionMode, TsType.promiseLiteral successLit),
   (OpName.writeWheelSpeed, TsType.promiseLiteral successLit),
   (OpName.syncReadPositions, TsType.promiseNumberMap),
   (OpName.syncWritePositions, TsType.promiseLiteral successLit),
   (OpName.syncWriteWheelSpeed, TsType.promiseLiteral successLit),
   (OpName.setBaudRate, TsType.promiseLiteral successLit),
   (OpName.setServoId, TsType.promiseLiteral successLit)]

/-! Single-register read pipeline for readPosition. -/

/-- Modelled from the spec: the response packet a conforming servo sends for
a position read, carrying its two-byte present position split per the
configured endianness, with error flags 0 (sections 4.1 and 6); the device
and dispatcher sources are not under src. -/
def deviceResponsePacket (protocolEnd id p : Nat) : List Nat :=
  encodeInstruction id 0 (wordBytes protocolEnd p)

/-- Modelled from the spec: assembly of a two-byte register value from the
decoded parameter bytes using the configured endianness (section 4.1); the
codec source is not under src. -/
def assembleWord (protocolEnd : Nat) : List Nat → Except CodecError Nat
  | [a, b] => Except.ok (if protocolEnd = 0 then a + 256 * b else b + 256 * a)
  | _ => Except.error CodecError.framingError

/-- Modelled from the spec: readPosition of the public API (sections 4.3,
4.5 and 6); the implementation is not under src. The servo with the given id
answers with its present position p; the response packet is decoded and the
two parameter bytes are assembled into the returned integer. -/
def readPositionModel (protocolEnd id p : Nat) : Except CodecError Nat :=
  match decodeResponse (deviceResponsePacket protocolEnd id p) with
  | Except.ok r => assembleWord protocolEnd r.parameters
  | Except.error e => Except.error e

/-! Bus serialization model for the CommandDispatcher mutual-exclusion
queue. -/

/-- One byte-level event on the shared half-duplex line: a write of a
transaction owned by caller t, or the matching read. -/
inductive BusEvent
  | wr (t : Nat)
  | rd (t : Nat)
deriving DecidableEq

/-- The state of the dispatcher queue model: callers that have arrived (with
the number of write-read cycles their transaction performs, in arrival
order), the waiting queue, the transaction currently holding the bus (id,
remaining cycles, whether a write is awaiting its read), the transactions
begun so far in service order, and the byte-level trace on the line. -/
structure BusState where
  arrivals : List (Nat × Nat)
  queue : List (Nat × Nat)
  current : Option (Nat × Nat × Bool)
  served : List (Nat × Nat)
  trace : List BusEvent
deriving DecidableEq

/-- The initial dispatcher state: nothing arrived, bus idle, empty trace. -/
def initState : BusState := ⟨[], [], none, [], []⟩

/-- Modelled from the spec: the interleaving semantics of concurrent calls
into the CommandDispatcher mutual-exclusion queue (section 5); the dispatcher
source is not under src. Callers arrive concurrently in any order and are
appended to the FIFO queue; the bus is acquired only when idle and only by
the head of the queue; a transaction holds the bus for all of its write-read
cycles (a SyncBatcher sequential fallback batch is one transaction with
several cycles) and releases it only when done. Writes and reads are the
only events that touch the line. -/
inductive BusStep : BusState → BusState → Prop
  | arrive (s : BusState) (t n : Nat) :
      BusStep s ⟨s.arrivals ++ [(t, n)], s.queue ++ [(t, n)], s.current, s.served, s.trace⟩
  | startTx (s : BusState) (t n : Nat) (rest : List (Nat × Nat))
      (hq : s.queue = (t, n) :: rest) (hc : s.current = none) :
      BusStep s ⟨s.arrivals, rest, some (t, n, false), s.served ++ [(t, n)], s.trace⟩
  | busWrite (s : BusState) (t k : Nat) (hc : s.current = some (t, k + 1, false)) :
      BusStep s ⟨s.arrivals, s.queue, some (t, k + 1, true), s.served,
        s.trace ++ [BusEvent.wr t]⟩
  | busRead (s : BusState) (t k : Nat) (hc : s.current = some (t, k + 1, true)) :
      BusStep s ⟨s.arrivals, s.queue, some (t, k, false), s.served,
        s.trace ++ [BusEvent.rd t]⟩
  | finish (s : BusState) (t : Nat) (hc : s.current = some (t, 0, false)) :
      BusStep s ⟨s.arrivals, s.queue, none, s.served, s.trace⟩

/-- The states reachable from the initial dispatcher state. -/
inductive Reachable : BusState → Prop
  | init : Reachable initState
  | step {s s' : BusState} : Reachable s → BusStep s s' → Reachable s'

/-- n complete write-read cycles of caller t. -/
def pairs (t : Nat) : Nat → List BusEvent
  | 0 => []
  | n + 1 => BusEvent.wr t :: BusEvent.rd t :: pairs t n

/-- The trace of a sequence of complete transactions: the cycles of each
transaction, contiguous and in order. -/
def blocks : List (Nat × Nat) → List BusEvent
  | [] => []
  | (t, n) :: rest => pairs t n ++ blocks rest

/-- The internal invariant of the dispatcher queue model: the arrival list is
the served transactions followed by the waiting queue, and the trace is the
complete blocks of the fully served transactions followed by the completed
part of the transaction currently holding the bus. -/
def BusInv (s : BusState) : Prop :=
  s.arrivals = s.served ++ s.queue ∧
  (match s.current with
   | none => s.trace = blocks s.served
   | some (t, k, false) =>
     ∃ pre n, s.served = pre ++ [(t, n)] ∧ k ≤ n ∧
       s.trace = blocks pre ++ pairs t (n - k)
   | some (t, k, true) =>
     ∃ pre n, s.served = pre ++ [(t, n)] ∧ 1 ≤ k ∧ k ≤ n ∧
       s.trace = blocks pre ++ pairs t (n - k) ++ [BusEvent.wr t])

/- Helper lemmas about the codec, shared by several claim theorems. -/

theorem findHeader_cons (l : List Nat) : findHeader (255 :: 255 :: l) = some l := rfl

theorem decodeResponse_cons (l : List Nat) :
    decodeResponse (255 :: 255 :: l) = decodeAfterHeader l := rfl

theorem decodeAfterHeader_eq (id len : Nat) (tail : List Nat) :
    decodeAfterHeader (id :: len :: tail) =
      (if len = tail.length ∧ 2 ≤ len then
        (if checksumByte id len (tail.headD 0) ((tail.drop 1).take (len - 2)) =
            (tail.drop (len - 1)).headD 0 then
          Except.ok ⟨id, tail.headD 0, (tail.drop 1).take (len - 2)⟩
        else
          Except.error CodecError.checksumError)
      else
        Except.error CodecError.framingError) := rfl

/-- Decoding a well-formed frame whose length byte is consistent reduces to the
checksum comparison. -/
theorem decode_frame (id len instr : Nat) (params : List Nat) (cs : Nat)
    (hlen : len = params.length + 2) :
    decodeResponse (255 :: 255 :: id :: len :: instr :: (params ++ [cs])) =
      (if checksumByte id len instr params = cs then
        Except.ok ⟨id, instr, params⟩
      else
        Except.error CodecError.checksumError) := by
  subst hlen
  rw [decodeResponse_cons, decodeAfterHeader_eq]
  have hlen' : (instr :: (params ++ [cs])).length = params.length + 2 := by
    simp
  have hcond : params.length + 2 = (instr :: (params ++ [cs])).length ∧
      2 ≤ params.length + 2 := ⟨hlen'.symm, by omega⟩
  rw [if_pos hcond]
  have hdrop1 : (instr :: (params ++ [cs])).drop 1 = params ++ [cs] := rfl
  have htake : (params ++ [cs]).take (params.length + 2 - 2) = params := by
    simpa using List.take_left params [cs]
  have hdrop : (instr :: (params ++ [cs])).drop (params.length + 2 - 1) = [cs] := by
    have h1 : params.length + 2 - 1 = params.length + 1 := by omega
    rw [h1, List.drop_succ_cons]
    simpa using List.drop_left params [cs]
  simp only [hdrop1, htake, hdrop, List.headD_cons]

/-- Decoding a frame whose length byte disagrees with the remaining buffer
size fails with a framing error. -/
theorem decode_frame_badlen (id len instr : Nat) (params : List Nat) (cs : Nat)
    (hlen : len ≠ params.length + 2) :
    decodeResponse (255 :: 255 :: id :: len :: instr :: (params ++ [cs])) =
      Except.error CodecError.framingError := by
  rw [decodeResponse_cons, decodeAfterHeader_eq]
  have hcond : ¬ (len = (instr :: (params ++ [cs])).length ∧ 2 ≤ len) := by
    intro h
    apply hlen
    have := h.1
    simpa using this
  rw [if_neg hcond]

/-- Decoding the encoding of an instruction recovers the id, the instruction
byte (in the errorFlags slot of a response) and the exact parameter bytes. -/
theorem decode_encode (id instr : Nat) (params : List Nat) :
    decodeResponse (encodeInstruction id instr params) =
      Except.ok ⟨id, instr, params⟩ := by
  unfold encodeInstruction
  rw [decode_frame id (params.length + 2) instr params
    (checksumByte id (params.length + 2) instr params) rfl]
  rw [if_pos rfl]

/-- Claim C1: for every valid servo id, instruction byte and parameter byte
sequence, encodeInstruction produces header(0xFF,0xFF) + id +
length(=len(parameters)+2) + instruction + parameters + checksum, and
decodeResponse of that packet succeeds and returns exactly the same
parameter bytes (codec round-trip symmetry). -/
theorem claim_c1_codec_roundtrip (id instr : Nat) (params : List Nat)
    (hid : id < 254) (hinstr : instr < 256)
    (hp : ∀ p ∈ params, p < 256) (hlen : params.length + 2 ≤ 255) :
    encodeInstruction id instr params =
      255 :: 255 :: id :: (params.length + 2) :: instr ::
        (params ++ [checksumByte id (params.length + 2) instr params]) ∧
    decodeResponse (encodeInstruction id instr params) =
      Except.ok ⟨id, instr, params⟩ :=
  ⟨rfl, decode_encode id instr params⟩

/-- Witness for claim C1 at the fixed vector of section 8 of spec.md:
id 1, instruction 3 (WRITE), parameters 0x2A 0x04 0x62. -/
theorem claim_c1_codec_roundtrip_witness :
    encodeInstruction 1 3 [42, 4, 98] =
      255 :: 255 :: 1 :: ([42, 4, 98].length + 2) :: 3 ::
        ([42, 4, 98] ++ [checksumByte 1 ([42, 4, 98].length + 2) 3 [42, 4, 98]]) ∧
    decodeResponse (encodeInstruction 1 3 [42, 4, 98]) =
      Except.ok ⟨1, 3, [42, 4, 98]⟩ :=
  claim_c1_codec_roundtrip 1 3 [42, 4, 98] (by decide) (by decide)
    (by decide) (by decide)

/- Helper lemmas for single-byte corruption of a framed packet. -/

theorem getD_mem_of_lt (l : List Nat) (j : Nat) (h : j < l.length) :
    l.getD j 0 ∈ l := by
  induction l generalizing j with
  | nil => simp at h
  | cons x xs ih =>
    cases j with
    | zero => simp
    | succ j =>
      have hj : j < xs.length := by simpa using h
      simpa using Or.inr (ih j hj)

/-- Replacing the j-th element of a list of naturals changes the sum by the
difference of the new and old element. -/
theorem sum_set (l : List Nat) (j b : Nat) (h : j < l.length) :
    (l.set j b).sum + l.getD j 0 = l.sum + b := by
  induction l generalizing j with
  | nil => simp at h
  | cons x xs ih =>
    cases j with
    | zero => simp [List.set]; omega
    | succ j =>
      have hj : j < xs.length := by simpa using h
      have := ih j hj
      simp only [List.set, List.sum_cons, List.getD_cons_succ]
      omega

/-- Claim C2, amended: decodeResponse accepts a framed packet exactly when
the trailing byte equals the checksum recomputed over the decoded fields and
fails with checksumError otherwise, never returning data from the packet;
and flipping any single non-header byte of an encoded packet (the id byte,
the length byte, the instruction-or-error byte, any parameter byte, or the
checksum byte) to a different byte value makes decodeResponse fail with
checksumError or framingError. Flipping one of the two header bytes is
excluded: the bounded header scan can then resynchronize on packet-interior
bytes and succeed with different parameters, as the counterexample theorem
shows. -/
theorem claim_c2_amended (id instr : Nat) (params : List Nat)
    (hid : id < 256) (hinstr : instr < 256) (hp : ∀ p ∈ params, p < 256) :
    (∀ c, decodeResponse
        (255 :: 255 :: id :: (params.length + 2) :: instr :: (params ++ [c])) =
      (if checksumByte id (params.length + 2) instr params = c then
        Except.ok ⟨id, instr, params⟩
      else
        Except.error CodecError.checksumError)) ∧
    (∀ b, b < 256 → b ≠ id → decodeResponse
        (255 :: 255 :: b :: (params.length + 2) :: instr ::
          (params ++ [checksumByte id (params.length + 2) instr params])) =
      Except.error CodecError.checksumError) ∧
    (∀ b, b ≠ params.length + 2 → decodeResponse
        (255 :: 255 :: id :: b :: instr ::
          (params ++ [checksumByte id (params.length + 2) instr params])) =
      Except.error CodecError.framingError) ∧
    (∀ b, b < 256 → b ≠ instr → decodeResponse
        (255 :: 255 :: id :: (params.length + 2) :: b ::
          (params ++ [checksumByte id (params.length + 2) instr params])) =
      Except.error CodecError.checksumError) ∧
    (∀ j b, j < params.length → b < 256 → b ≠ params.getD j 0 → decodeResponse
        (255 :: 255 :: id :: (params.length + 2) :: instr ::
          (params.set j b ++ [checksumByte id (params.length + 2) instr params])) =
      Except.error CodecError.checksumError) ∧
    (∀ b, b ≠ checksumByte id (params.length + 2) instr params → decodeResponse
        (255 :: 255 :: id :: (params.length + 2) :: instr :: (params ++ [b])) =
      Except.error CodecError.checksumError) := by
  refine ⟨?_, ?_, ?_, ?_, ?_, ?_⟩
  · intro c
    exact decode_frame id (params.length + 2) instr params c rfl
  · intro b hb hbne
    rw [decode_frame b (params.length + 2) instr params _ rfl, if_neg]
    unfold checksumByte
    intro h
    have h1 : (b + (params.length + 2) + instr + params.sum) % 256 < 256 := by omega
    have h2 : (id + (params.length + 2) + instr + params.sum) % 256 < 256 := by omega
    omega
  · intro b hbne
    exact decode_frame_badlen id b instr params _ hbne
  · intro b hb hbne
    rw [decode_frame id (params.length + 2) b params _ rfl, if_neg]
    unfold checksumByte
    intro h
    have h1 : (id + (params.length + 2) + b + params.sum) % 256 < 256 := by omega
    have h2 : (id + (params.length + 2) + instr + params.sum) % 256 < 256 := by omega
    omega
  · intro j b hj hb hbne
    have hlen : params.length + 2 = (params.set j b).length + 2 := by
      rw [List.length_set]
    rw [decode_frame id (params.length + 2) instr (params.set j b) _ hlen, if_neg]
    unfold checksumByte
    have hsum := sum_set params j b hj
    have hpj : params.getD j 0 < 256 := hp _ (getD_mem_of_lt params j hj)
    intro h
    have h1 : (id + (params.length + 2) + instr + (params.set j b).sum) % 256 < 256 := by
      omega
    have h2 : (id + (params.length + 2) + instr + params.sum) % 256 < 256 := by omega
    omega
  · intro b hbne
    rw [decode_frame id (params.length + 2) instr params b rfl, if_neg]
    exact hbne ∘ Eq.symm

/-- Counterexample for claim C2 as stated: the claim demands that flipping
any single byte of an encoded packet makes decodeResponse fail, but flipping
the first header byte of the packet encodeInstruction 1 0
[248, 255, 255, 1, 3, 0, 0] (a valid id, instruction and parameter byte
sequence) from 255 to 0 makes the header scan resynchronize on the embedded
bytes 255 255 1 3 0 0 251, which form a well-framed packet with a matching
checksum, so decodeResponse succeeds and returns parameter bytes different
from the encoded ones instead of failing. -/
theorem claim_c2_counterexample :
    (encodeInstruction 1 0 [248, 255, 255, 1, 3, 0, 0]).set 0 0 ≠
      encodeInstruction 1 0 [248, 255, 255, 1, 3, 0, 0] ∧
    decodeResponse ((encodeInstruction 1 0 [248, 255, 255, 1, 3, 0, 0]).set 0 0) =
      Except.ok ⟨1, 0, [0]⟩ ∧
    ([0] : List Nat) ≠ [248, 255, 255, 1, 3, 0, 0] :=
  ⟨by decide, by rfl, by decide⟩

/-- Witness for the amended claim C2 at id 1, instruction 2, parameters
[10, 20]: the checksum byte is 218, so corrupting the checksum byte to 217
is rejected as a checksum error and corrupting the length byte to 7 is
rejected as a framing error. -/
theorem claim_c2_amended_witness :
    decodeResponse (255 :: 255 :: 1 :: 4 :: 2 :: ([10, 20] ++ [217])) =
      Except.error CodecError.checksumError ∧
    decodeResponse (255 :: 255 :: 1 :: 7 :: 2 :: ([10, 20] ++ [218])) =
      Except.error CodecError.framingError := by
  have h := claim_c2_amended 1 2 [10, 20] (by decide) (by decide) (by decide)
  exact ⟨h.2.2.2.2.2 217 (by decide), h.2.2.1 7 (by decide)⟩

/- Helper lemmas for the dispatcher retry loop. -/

theorem executeFrom_transient_step (reqId : Nat) (transport : Nat → AttemptResult)
    (a f : Nat) (h : isTransient (transport a) = true) :
    executeFrom reqId transport a (f + 1) = executeFrom reqId transport (a + 1) f := by
  cases htr : transport a with
  | reply rid ps => rw [htr] at h; simp [isTransient] at h
  | timeout => simp [executeFrom, htr]
  | checksumNoise => simp [executeFrom, htr]
  | framingNoise => simp [executeFrom, htr]

theorem executeFrom_transient_zero (reqId : Nat) (transport : Nat → AttemptResult)
    (a : Nat) (h : isTransient (transport a) = true) :
    executeFrom reqId transport a 0 = Except.error (attemptError (transport a)) := by
  cases htr : transport a with
  | reply rid ps => rw [htr] at h; simp [isTransient] at h
  | timeout => simp [executeFrom, htr, attemptError]
  | checksumNoise => simp [executeFrom, htr, attemptError]
  | framingNoise => simp [executeFrom, htr, attemptError]

theorem executeFrom_reply (reqId : Nat) (transport : Nat → AttemptResult)
    (a rid : Nat) (ps : List Nat) (h : transport a = AttemptResult.reply rid ps)
    (f : Nat) :
    executeFrom reqId transport a f =
      (if rid = reqId then Except.ok ps
       else Except.error DispatchError.protocolMismatch) := by
  cases f <;> simp [executeFrom, h]

/-- Claim C6: inside CommandDispatcher.execute a transient failure (response
timeout, checksum corruption, framing corruption) is retried up to the fixed
bound of 2 retries with the same packet, and after exhausting retries the
specific error kind of the final attempt is surfaced, so only the final
failure crosses the API boundary; a decoded reply whose id differs from the
requested id is a protocol mismatch that is never retried (the result is the
protocol error regardless of what later attempts would have returned) and is
fatal for the operation. -/
theorem claim_c6_retry_policy (reqId : Nat) (transport : Nat → AttemptResult) :
    ((∀ i, i ≤ 2 → isTransient (transport i) = true) →
      execute reqId transport = Except.error (attemptError (transport 2))) ∧
    (∀ j ps, j ≤ 2 → (∀ i, i < j → isTransient (transport i) = true) →
      transport j = AttemptResult.reply reqId ps →
      execute reqId transport = Except.ok ps) ∧
    (∀ j rid ps, j ≤ 2 → (∀ i, i < j → isTransient (transport i) = true) →
      transport j = AttemptResult.reply rid ps → rid ≠ reqId →
      execute reqId transport = Except.error DispatchError.protocolMismatch) := by
  refine ⟨?_, ?_, ?_⟩
  · intro h
    show executeFrom reqId transport 0 2 = _
    rw [executeFrom_transient_step reqId transport 0 1 (h 0 (by omega))]
    rw [executeFrom_transient_step reqId transport 1 0 (h 1 (by omega))]
    exact executeFrom_transient_zero reqId transport 2 (h 2 (by omega))
  · intro j ps hj hpre hrep
    show executeFrom reqId transport 0 2 = _
    interval_cases j
    · rw [executeFrom_reply reqId transport 0 reqId ps hrep 2, if_pos rfl]
    · rw [executeFrom_transient_step reqId transport 0 1 (hpre 0 (by omega))]
      rw [executeFrom_reply reqId transport 1 reqId ps hrep 1, if_pos rfl]
    · rw [executeFrom_transient_step reqId transport 0 1 (hpre 0 (by omega))]
      rw [executeFrom_transient_step reqId transport 1 0 (hpre 1 (by omega))]
      rw [executeFrom_reply reqId transport 2 reqId ps hrep 0, if_pos rfl]
  · intro j rid ps hj hpre hrep hne
    show executeFrom reqId transport 0 2 = _
    interval_cases j
    · rw [executeFrom_reply reqId transport 0 rid ps hrep 2, if_neg hne]
    · rw [executeFrom_transient_step reqId transport 0 1 (hpre 0 (by omega))]
      rw [executeFrom_reply reqId transport 1 rid ps hrep 1, if_neg hne]
    · rw [executeFrom_transient_step reqId transport 0 1 (hpre 0 (by omega))]
      rw [executeFrom_transient_step reqId transport 1 0 (hpre 1 (by omega))]
      rw [executeFrom_reply reqId transport 2 rid ps hrep 0, if_neg hne]

/-- Witness for claim C6: with a transport that always times out the final
timeout is surfaced after the retries; with one checksum-noise attempt
followed by a matching reply the value is returned; with a mismatched reply
on the second attempt the protocol error is fatal even though the third
attempt would have answered correctly. -/
theorem claim_c6_retry_policy_witness :
    execute 5 (fun _ => AttemptResult.timeout) =
      Except.error DispatchError.responseTimeout ∧
    execute 5 (fun i => if i = 0 then AttemptResult.checksumNoise
      else AttemptResult.reply 5 [7]) = Except.ok [7] ∧
    execute 5 (fun i => if i = 0 then AttemptResult.timeout
      else if i = 1 then AttemptResult.reply 9 []
      else AttemptResult.reply 5 [1]) =
      Except.error DispatchError.protocolMismatch := by
  refine ⟨?_, ?_, ?_⟩
  · exact (claim_c6_retry_policy 5 (fun _ => AttemptResult.timeout)).1
      (fun i _ => by decide)
  · exact (claim_c6_retry_policy 5 _).2.1 1 [7] (by omega)
      (fun i hi => by interval_cases i; decide) (by decide)
  · exact (claim_c6_retry_policy 5 _).2.2 1 9 [] (by omega)
      (fun i hi => by interval_cases i; decide) (by decide) (by decide)

/-- Claim C3: on the sequential fallback path, syncRead over a list of servo
ids returns a mapping whose keys are exactly the ids whose individual
dispatcher read (with retries) succeeded, omitting every id whose read
failed; the function is total, so a failing id never aborts the batch or
removes the values of the other ids. Concretely, if servo 3 of 1, 2, 3, 4
never responds, the returned mapping has keys 1, 2, 4 and omits 3. -/
theorem claim_c3_syncread_isolation :
    (∀ (dev : Nat → Nat → AttemptResult) (ids : List Nat),
      (syncReadFallback dev ids).map Prod.fst = ids.filter (readsOk dev)) ∧
    (syncReadFallback
        (fun id _ => if id = 3 then AttemptResult.timeout
          else AttemptResult.reply id [id, 0])
        [1, 2, 3, 4]).map Prod.fst = [1, 2, 4] := by
  constructor
  · intro dev ids
    induction ids with
    | nil => rfl
    | cons x xs ih =>
      simp only [syncReadFallback, List.filterMap_cons, List.filter_cons] at *
      cases hx : execute x (dev x) with
      | ok ps => simp [readsOk, hx, ih]
      | error e => simp [readsOk, hx, ih]
  · decide

/-- Claim C8: for every servo id in the valid single-target range, reading
the position of a conforming servo (one whose present position register
holds a value between 0 and 4095) succeeds and returns exactly that value,
hence an integer between 0 and 4095 inclusive, under either protocol
endianness. -/
theorem claim_c8_readposition_range (protocolEnd id p : Nat)
    (hid : id < 254) (hp : p ≤ 4095) :
    readPositionModel protocolEnd id p = Except.ok p ∧ p ≤ 4095 := by
  refine ⟨?_, hp⟩
  unfold readPositionModel deviceResponsePacket
  rw [decode_encode]
  show assembleWord protocolEnd (wordBytes protocolEnd p) = Except.ok p
  by_cases hpe : protocolEnd = 0 <;> simp [wordBytes, assembleWord, hpe] <;> omega

/-- Witness for claim C8 at servo id 1 and position 1122, the value of the
usage example in src/unnamed/part_000. -/
theorem claim_c8_readposition_range_witness :
    readPositionModel 0 1 1122 = Except.ok 1122 ∧ (1122 : Nat) ≤ 4095 :=
  claim_c8_readposition_range 0 1 1122 (by decide) (by decide)

/-- Claim C7: calling connect while the connection is already Connected fails
with alreadyConnected, leaves the state unchanged and neither reopens the
transport nor touches the bus; every other public operation called while
Disconnected fails with notConnected before any bus traffic, with the state
unchanged. -/
theorem claim_c7_connection_guard :
    (∀ (opts : Option ConnectionOptions) (cfg : ResolvedConfig),
      connectOp opts (ConnState.connected cfg) =
        ⟨ConnState.connected cfg, Except.error SDKError.alreadyConnected, 0, 0⟩) ∧
    (∀ (op : OpName) (opts : Option ConnectionOptions), op ≠ OpName.connect →
      runOp op opts ConnState.disconnected =
        ⟨ConnState.disconnected, Except.error SDKError.notConnected, 0, 0⟩) := by
  constructor
  · intro opts cfg
    rfl
  · intro op opts hne
    unfold runOp
    rw [if_neg hne]

/-- Witness for claim C7: connect on a connected state fails with
alreadyConnected without reopening, and readPosition on a disconnected
state fails with notConnected without bus traffic. -/
theorem claim_c7_connection_guard_witness :
    connectOp none (ConnState.connected ⟨1000000, 0⟩) =
      ⟨ConnState.connected ⟨1000000, 0⟩, Except.error SDKError.alreadyConnected, 0, 0⟩ ∧
    runOp OpName.readPosition none ConnState.disconnected =
      ⟨ConnState.disconnected, Except.error SDKError.notConnected, 0, 0⟩ :=
  ⟨claim_c7_connection_guard.1 none ⟨1000000, 0⟩,
   claim_c7_connection_guard.2 OpName.readPosition none (by decide)⟩

/-- Claim C9: every write-style public operation of the ScsServoSDK interface
declared in src/unnamed/part_001 (writePosition, writeTorqueEnable,
writeAcceleration, setWheelMode, setPositionMode, writeWheelSpeed,
syncWritePositions, syncWriteWheelSpeed, setBaudRate, setServoId) is
declared to resolve, on success, with exactly the literal string type
success, for all inputs on which it succeeds. -/
theorem claim_c9_write_ops_success_literal :
    sdkDeclaredReturns.lookup OpName.writePosition =
      some (TsType.promiseLiteral successLit) ∧
    sdkDeclaredReturns.lookup OpName.writeTorqueEnable =
      some (TsType.promiseLiteral successLit) ∧
    sdkDeclaredReturns.lookup OpName.writeAcceleration =
      some (TsType.promiseLiteral successLit) ∧
    sdkDeclaredReturns.lookup OpName.setWheelMode =
      some (TsType.promiseLiteral successLit) ∧
    sdkDeclaredReturns.lookup OpName.setPositionMode =
      some (TsType.promiseLiteral successLit) ∧
    sdkDeclaredReturns.lookup OpName.writeWheelSpeed =
      some (TsType.promiseLiteral successLit) ∧
    sdkDeclaredReturns.lookup OpName.syncWritePositions =
      some (TsType.promiseLiteral successLit) ∧
    sdkDeclaredReturns.lookup OpName.syncWriteWheelSpeed =
      some (TsType.promiseLiteral successLit) ∧
    sdkDeclaredReturns.lookup OpName.setBaudRate =
      some (TsType.promiseLiteral successLit) ∧
    sdkDeclaredReturns.lookup OpName.setServoId =
      some (TsType.promiseLiteral successLit) :=
  ⟨rfl, rfl, rfl, rfl, rfl, rfl, rfl, rfl, rfl, rfl⟩

/-- Claim C10: connect may be called with no arguments at all. In the
declaration of src/unnamed/part_001 the options parameter is optional and
both of its fields are optional, which the model renders as Option types; a
bare connect from the disconnected state succeeds using the default
configuration rather than failing for a missing argument, and each missing
field falls back to its default independently. -/
theorem claim_c10_connect_optional :
    connectOp none ConnState.disconnected =
      ⟨ConnState.connected ⟨defaultBaudRate, defaultProtocolEnd⟩,
        Except.ok (OpResult.boolResult true), 0, 1⟩ ∧
    resolveOptions none = ⟨defaultBaudRate, defaultProtocolEnd⟩ ∧
    resolveOptions (some ⟨none, none⟩) = resolveOptions none ∧
    (∀ b, resolveOptions (some ⟨some b, none⟩) = ⟨b, defaultProtocolEnd⟩) ∧
    (∀ e, resolveOptions (some ⟨none, some e⟩) = ⟨defaultBaudRate, e⟩) :=
  ⟨rfl, rfl, rfl, fun _ => rfl, fun _ => rfl⟩

/- Helper lemmas for the sync write parameter block. -/

theorem lookup_eq_of_perm (a : Nat) {l₁ l₂ : List (Nat × Nat)} (h : l₁.Perm l₂) :
    (l₁.map Prod.fst).Nodup → l₁.lookup a = l₂.lookup a := by
  induction h with
  | nil => intro _; rfl
  | cons x p ih =>
    intro hnd
    obtain ⟨k, v⟩ := x
    simp only [List.map_cons, List.nodup_cons] at hnd
    cases hak : a == k
    · simp only [List.lookup, hak]
      exact ih hnd.2
    · simp only [List.lookup, hak]
  | swap x y l =>
    intro hnd
    obtain ⟨k₁, v₁⟩ := x
    obtain ⟨k₂, v₂⟩ := y
    simp only [List.map_cons, List.nodup_cons, List.mem_cons] at hnd
    have hne : k₂ ≠ k₁ := fun hh => hnd.1 (Or.inl hh)
    cases h2 : a == k₂ <;> cases h1 : a == k₁ <;>
      simp only [List.lookup, h1, h2]
    exact absurd ((eq_of_beq h2).symm.trans (eq_of_beq h1)) hne
  | trans p₁ p₂ ih₁ ih₂ =>
    intro hnd
    have hnd₂ := ((p₁.map Prod.fst).nodup_iff).mp hnd
    rw [ih₁ hnd, ih₂ hnd₂]

theorem sortedIds_eq_of_perm {l₁ l₂ : List (Nat × Nat)} (h : l₁.Perm l₂) :
    sortedIds l₁ = sortedIds l₂ := by
  have h1 : (sortedIds l₁).Perm (sortedIds l₂) :=
    (List.perm_insertionSort _ _).trans
      ((h.map Prod.fst).trans (List.perm_insertionSort _ _).symm)
  have h2 : List.Sorted (· ≤ ·) (sortedIds l₁) := List.sorted_insertionSort _ _
  have h3 : List.Sorted (· ≤ ·) (sortedIds l₂) := List.sorted_insertionSort _ _
  exact List.eq_of_perm_of_sorted h1 h2 h3

theorem segList_map_congr (l : List Nat) (f g : Nat → List Nat)
    (h : ∀ x ∈ l, f x = g x) : segList (l.map f) = segList (l.map g) := by
  induction l with
  | nil => rfl
  | cons x xs ih =>
    simp only [List.map_cons, segList]
    rw [h x (by simp), ih (fun y hy => h y (by simp [hy]))]

theorem syncWriteParams_eq_of_perm (pe : Nat) {l₁ l₂ : List (Nat × Nat)}
    (h : l₂.Perm l₁) (hnd : (l₁.map Prod.fst).Nodup) :
    syncWriteParams pe l₂ = syncWriteParams pe l₁ := by
  have hnd₂ : (l₂.map Prod.fst).Nodup := ((h.map Prod.fst).nodup_iff).mpr hnd
  unfold syncWriteParams
  rw [sortedIds_eq_of_perm h]
  apply segList_map_congr
  intro x _
  unfold lookupVal
  rw [lookup_eq_of_perm x h hnd₂]

theorem sortedIds_sorted_lt (l : List (Nat × Nat))
    (hnd : (l.map Prod.fst).Nodup) : List.Sorted (· < ·) (sortedIds l) := by
  have hs : List.Sorted (· ≤ ·) (sortedIds l) := List.sorted_insertionSort _ _
  have hnd' : (sortedIds l).Nodup := ((List.perm_insertionSort _ _).nodup_iff).mpr hnd
  exact (hs.and hnd').imp (fun h => lt_of_le_of_ne h.1 h.2)

/-- Claim C4: for every non-empty association of servo ids to in-range
values with distinct ids, syncWrite produces exactly one Transport write
call, addressed to the broadcast id and dispatched with expectResponse
false; its parameter block is one fixed-size segment (servo id followed by
the two value bytes, 3 bytes per entry) per entry, laid out in ascending
servo id order; and the result is independent of the caller input order
(any permutation of the entries yields the identical write call). -/
theorem claim_c4_syncwrite (pe : Nat) (entries alt : List (Nat × Nat))
    (hne : entries ≠ []) (hnd : (entries.map Prod.fst).Nodup)
    (hvals : ∀ e ∈ entries, e.2 < 65536) (hperm : alt.Perm entries) :
    syncWrite pe entries =
      [⟨encodeInstruction broadcastId instSyncWrite (syncWriteParams pe entries),
        false⟩] ∧
    syncWriteParams pe entries =
      segList ((sortedIds entries).map
        (fun id => id :: wordBytes pe (lookupVal entries id))) ∧
    (sortedIds entries).Perm (entries.map Prod.fst) ∧
    List.Sorted (· < ·) (sortedIds entries) ∧
    (∀ id v, (id :: wordBytes pe v).length = 3) ∧
    syncWrite pe alt = syncWrite pe entries := by
  refine ⟨rfl, rfl, List.perm_insertionSort _ _,
    sortedIds_sorted_lt entries hnd, ?_, ?_⟩
  · intro id v
    unfold wordBytes
    by_cases h : pe = 0 <;> simp [h]
  · unfold syncWrite
    rw [syncWriteParams_eq_of_perm pe hperm hnd]

/-- Witness for claim C4: writing positions 2000 to servo 1 and 1000 to
servo 3 produces the same single broadcast write call whichever order the
caller lists the two servos in, with the segment of servo 1 first. -/
theorem claim_c4_syncwrite_witness :
    syncWrite 0 [(1, 2000), (3, 1000)] = syncWrite 0 [(3, 1000), (1, 2000)] ∧
    syncWrite 0 [(3, 1000), (1, 2000)] =
      [⟨encodeInstruction broadcastId instSyncWrite [1, 208, 7, 3, 232, 3],
        false⟩] := by
  refine ⟨(claim_c4_syncwrite 0 [(3, 1000), (1, 2000)] [(1, 2000), (3, 1000)]
    (by decide) (by decide) (by decide) (by decide)).2.2.2.2.2, by decide⟩

/- Helper lemmas for the bus serialization model. -/

theorem pairs_succ (t n : Nat) :
    pairs t (n + 1) = pairs t n ++ [BusEvent.wr t, BusEvent.rd t] := by
  induction n with
  | zero => rfl
  | succ n ih => exact congrArg (fun l => BusEvent.wr t :: BusEvent.rd t :: l) ih

theorem blocks_append (l₁ l₂ : List (Nat × Nat)) :
    blocks (l₁ ++ l₂) = blocks l₁ ++ blocks l₂ := by
  induction l₁ with
  | nil => rfl
  | cons x xs ih =>
    obtain ⟨t, n⟩ := x
    simp [blocks, ih]

theorem busInv_init : BusInv initState := ⟨rfl, rfl⟩

theorem busInv_step {s s' : BusState} (hinv : BusInv s) (hstep : BusStep s s') :
    BusInv s' := by
  obtain ⟨ha, hm⟩ := hinv
  cases hstep with
  | arrive t n =>
    refine ⟨?_, hm⟩
    rw [ha, List.append_assoc]
  | startTx t n rest hq hc =>
    rw [hc] at hm
    refine ⟨?_, ?_⟩
    · rw [ha, hq]
      simp
    · refine ⟨s.served, n, rfl, le_refl n, ?_⟩
      rw [hm]
      simp [Nat.sub_self, pairs]
  | busWrite t k hc =>
    rw [hc] at hm
    obtain ⟨pre, n, hserved, hk, htr⟩ := hm
    refine ⟨ha, pre, n, hserved, by omega, hk, ?_⟩
    rw [htr, List.append_assoc]
  | busRead t k hc =>
    rw [hc] at hm
    obtain ⟨pre, n, hserved, h1, hk, htr⟩ := hm
    refine ⟨ha, pre, n, hserved, by omega, ?_⟩
    rw [htr]
    have hs : n - k = (n - (k + 1)) + 1 := by omega
    rw [hs, pairs_succ]
    simp [List.append_assoc]
  | finish t hc =>
    rw [hc] at hm
    obtain ⟨pre, n, hserved, hk, htr⟩ := hm
    refine ⟨ha, ?_⟩
    show s.trace = blocks s.served
    rw [hserved, blocks_append, htr]
    simp [blocks]

theorem reachable_busInv {s : BusState} (h : Reachable s) : BusInv s := by
  induction h with
  | init => exact busInv_init
  | step hr hstep ih => exact busInv_step ih hstep

/-- Claim C5: in every reachable state of the dispatcher queue model, the
byte-level trace on the shared line is a concatenation of complete
write-read transaction blocks, one contiguous block per begun transaction in
service order, followed by at most one pending unmatched write of the
transaction currently holding the bus — so the bytes of two concurrent
execute calls are never interleaved and each transaction completes its full
write-read cycle sequence before the next transaction writes; and the
service order is FIFO by arrival (the arrival list is exactly the served
transactions followed by the still-waiting queue). A SyncBatcher sequential
fallback batch is one transaction with several cycles, so its cycles stay
contiguous as well. -/
theorem claim_c5_bus_serialization (s : BusState) (h : Reachable s) :
    s.arrivals = s.served ++ s.queue ∧
    ∃ gs : List (Nat × Nat), gs.map Prod.fst = s.served.map Prod.fst ∧
      (s.trace = blocks gs ∨ ∃ t, s.trace = blocks gs ++ [BusEvent.wr t]) := by
  obtain ⟨ha, hm⟩ := reachable_busInv h
  refine ⟨ha, ?_⟩
  cases hcur : s.current with
  | none =>
    rw [hcur] at hm
    exact ⟨s.served, rfl, Or.inl hm⟩
  | some c =>
    obtain ⟨t, k, b⟩ := c
    cases b
    · rw [hcur] at hm
      obtain ⟨pre, n, hserved, hk, htr⟩ := hm
      refine ⟨pre ++ [(t, n - k)], ?_, Or.inl ?_⟩
      · rw [hserved]
        simp
      · rw [htr, blocks_append]
        simp [blocks]
    · rw [hcur] at hm
      obtain ⟨pre, n, hserved, h1, hk, htr⟩ := hm
      refine ⟨pre ++ [(t, n - k)], ?_, Or.inr ⟨t, ?_⟩⟩
      · rw [hserved]
        simp
      · rw [htr, blocks_append]
        simp [blocks, List.append_assoc]

/-- Witness for claim C5: a concrete run in which caller 1 arrives with a
two-cycle batch, caller 2 arrives with a single cycle, and both run to
completion; the resulting trace consists of the two contiguous blocks in
arrival order with no interleaving. -/
theorem claim_c5_bus_serialization_witness :
    ([(1, 2), (2, 1)] : List (Nat × Nat)) =
      [(1, 2), (2, 1)] ++ ([] : List (Nat × Nat)) ∧
    ∃ gs : List (Nat × Nat),
      gs.map Prod.fst = ([(1, 2), (2, 1)] : List (Nat × Nat)).map Prod.fst ∧
      ([BusEvent.wr 1, BusEvent.rd 1, BusEvent.wr 1, BusEvent.rd 1,
          BusEvent.wr 2, BusEvent.rd 2] = blocks gs ∨
        ∃ t, [BusEvent.wr 1, BusEvent.rd 1, BusEvent.wr 1, BusEvent.rd 1,
          BusEvent.wr 2, BusEvent.rd 2] = blocks gs ++ [BusEvent.wr t]) := by
  have h1 : Reachable ⟨[(1, 2)], [(1, 2)], none, [], []⟩ :=
    Reachable.step Reachable.init (BusStep.arrive initState 1 2)
  have h2 : Reachable ⟨[(1, 2), (2, 1)], [(1, 2), (2, 1)], none, [], []⟩ :=
    Reachable.step h1 (BusStep.arrive ⟨[(1, 2)], [(1, 2)], none, [], []⟩ 2 1)
  have h3 : Reachable ⟨[(1, 2), (2, 1)], [(2, 1)], some (1, 2, false), [(1, 2)], []⟩ :=
    Reachable.step h2 (BusStep.startTx
      ⟨[(1, 2), (2, 1)], [(1, 2), (2, 1)], none, [], []⟩ 1 2 [(2, 1)] rfl rfl)
  have h4 : Reachable ⟨[(1, 2), (2, 1)], [(2, 1)], some (1, 2, true), [(1, 2)],
      [BusEvent.wr 1]⟩ :=
    Reachable.step h3 (BusStep.busWrite
      ⟨[(1, 2), (2, 1)], [(2, 1)], some (1, 2, false), [(1, 2)], []⟩ 1 1 rfl)
  have h5 : Reachable ⟨[(1, 2), (2, 1)], [(2, 1)], some (1, 1, false), [(1, 2)],
      [BusEvent.wr 1, BusEvent.rd 1]⟩ :=
    Reachable.step h4 (BusStep.busRead
      ⟨[(1, 2), (2, 1)], [(2, 1)], some (1, 2, true), [(1, 2)], [BusEvent.wr 1]⟩ 1 1 rfl)
  have h6 : Reachable ⟨[(1, 2), (2, 1)], [(2, 1)], some (1, 1, true), [(1, 2)],
      [BusEvent.wr 1, BusEvent.rd 1, BusEvent.wr 1]⟩ :=
    Reachable.step h5 (BusStep.busWrite
      ⟨[(1, 2), (2, 1)], [(2, 1)], some (1, 1, false), [(1, 2)],
        [BusEvent.wr 1, BusEvent.rd 1]⟩ 1 0 rfl)
  have h7 : Reachable ⟨[(1, 2), (2, 1)], [(2, 1)], some (1, 0, false), [(1, 2)],
      [BusEvent.wr 1, BusEvent.rd 1, BusEvent.wr 1, BusEvent.rd 1]⟩ :=
    Reachable.step h6 (BusStep.busRead
      ⟨[(1, 2), (2, 1)], [(2, 1)], some (1, 1, true), [(1, 2)],
        [BusEvent.wr 1, BusEvent.rd 1, BusEvent.wr 1]⟩ 1 0 rfl)
  have h8 : Reachable ⟨[(1, 2), (2, 1)], [(2, 1)], none, [(1, 2)],
      [BusEvent.wr 1, BusEvent.rd 1, BusEvent.wr 1, BusEvent.rd 1]⟩ :=
    Reachable.step h7 (BusStep.finish
      ⟨[(1, 2), (2, 1)], [(2, 1)], some (1, 0, false), [(1, 2)],
        [BusEvent.wr 1, BusEvent.rd 1, BusEvent.wr 1, BusEvent.rd 1]⟩ 1 rfl)
  have h9 : Reachable ⟨[(1, 2), (2, 1)], [], some (2, 1, false), [(1, 2), (2, 1)],
      [BusEvent.wr 1, BusEvent.rd 1, BusEvent.wr 1, BusEvent.rd 1]⟩ :=
    Reachable.step h8 (BusStep.startTx
      ⟨[(1, 2), (2, 1)], [(2, 1)], none, [(1, 2)],
        [BusEvent.wr 1, BusEvent.rd 1, BusEvent.wr 1, BusEvent.rd 1]⟩ 2 1 [] rfl rfl)
  have h10 : Reachable ⟨[(1, 2), (2, 1)], [], some (2, 1, true), [(1, 2), (2, 1)],
      [BusEvent.wr 1, BusEvent.rd 1, BusEvent.wr 1, BusEvent.rd 1, BusEvent.wr 2]⟩ :=
    Reachable.step h9 (BusStep.busWrite
      ⟨[(1, 2), (2, 1)], [], some (2, 1, false), [(1, 2), (2, 1)],
        [BusEvent.wr 1, BusEvent.rd 1, BusEvent.wr 1, BusEvent.rd 1]⟩ 2 0 rfl)
  have h11 : Reachable ⟨[(1, 2), (2, 1)], [], some (2, 0, false), [(1, 2), (2, 1)],
      [BusEvent.wr 1, BusEvent.rd 1, BusEvent.wr 1, BusEvent.rd 1,
        BusEvent.wr 2, BusEvent.rd 2]⟩ :=
    Reachable.step h10 (BusStep.busRead
      ⟨[(1, 2), (2, 1)], [], some (2, 1, true), [(1, 2), (2, 1)],
        [BusEvent.wr 1, BusEvent.rd 1, BusEvent.wr 1, BusEvent.rd 1,
          BusEvent.wr 2]⟩ 2 0 rfl)
  have h12 : Reachable ⟨[(1, 2), (2, 1)], [], none, [(1, 2), (2, 1)],
      [BusEvent.wr 1, BusEvent.rd 1, BusEvent.wr 1, BusEvent.rd 1,
        BusEvent.wr 2, BusEvent.rd 2]⟩ :=
    Reachable.step h11 (BusStep.finish
      ⟨[(1, 2), (2, 1)], [], some (2, 0, false), [(1, 2), (2, 1)],
        [BusEvent.wr 1, BusEvent.rd 1, BusEvent.wr 1, BusEvent.rd 1,
          BusEvent.wr 2, BusEvent.rd 2]⟩ 2 rfl)
  exact claim_c5_bus_serialization _ h12

end RobotSDK
